import Mathlib

/-!
Shallow embedding of the expense-tracker core: the validation middleware
(`src/helpers/middlewares/validator.ts`), the query-construction and service
orchestration layer (`src/expenses/expenses.service.ts`) and the repository
query shapes (`src/expenses/expenses.repository.ts`), over the `expenses`
table of `prisma/migrations/20250805132631_init/migration.sql`.

JavaScript numbers are modelled as `JsNum` (a rational value or NaN) at the
precision the validation logic distinguishes; JS `Date` values are modelled
as `Option Int` millisecond timestamps, `none` standing for an Invalid Date;
`undefined` body fields are modelled by `Option` at each field site.
-/

deriving instance DecidableEq for Except

namespace ExpenseTracker

/-- A JavaScript number: NaN or a (rational) value. -/
inductive JsNum where
  | nan
  | val (q : ℚ)
deriving DecidableEq, Repr

/-- A JSON-ish runtime value as it can appear in a `req.body` field. -/
inductive JsVal where
  | str (s : String)
  | num (n : JsNum)
  | nullV
  | boolV (b : Bool)
deriving DecidableEq, Repr

/-- JavaScript truthiness of a value. -/
def jsTruthy : JsVal → Bool
  | .str s => s ≠ ""
  | .num .nan => false
  | .num (.val q) => q ≠ 0
  | .nullV => false
  | .boolV b => b

/-- Truthiness of a possibly-`undefined` value (`none` = `undefined`). -/
def optTruthy : Option JsVal → Bool
  | none => false
  | some v => jsTruthy v

/-- JavaScript `String.prototype.trim()`: strip leading and trailing
whitespace (implemented structurally so that it evaluates by kernel
reduction). -/
def jsTrim (s : String) : String :=
  ⟨((s.data.dropWhile Char.isWhitespace).reverse.dropWhile Char.isWhitespace).reverse⟩

/-- `typeof x === 'string'` for a possibly-`undefined` value. -/
def jsIsString : Option JsVal → Bool
  | some (.str _) => true
  | _ => false

/-- The string payload of a value known to be a string (junk otherwise). -/
def jsStrOf : Option JsVal → String
  | some (.str s) => s
  | _ => ""

/-- The runtime shape of `req.body` for expense mutations: the five
recognized fields (`none` = key absent) plus any unknown/extra keys. -/
structure Body where
  name : Option JsVal := none
  amount : Option JsVal := none
  currency : Option JsVal := none
  category : Option JsVal := none
  date : Option JsVal := none
  extra : List (String × JsVal) := []
deriving DecidableEq, Repr

/-- `ExpenseValidationRules.name.maxLength` from `expense.entity.ts`. -/
def ExpenseValidationRules.nameMaxLength : Nat := 255

/-- `ExpenseValidationRules.amount.min` from `expense.entity.ts`. -/
def ExpenseValidationRules.amountMin : ℚ := Rat.mk' 1 100 (by decide) (by decide)

/-- `ExpenseValidationRules.amount.max` from `expense.entity.ts`. -/
def ExpenseValidationRules.amountMax : ℚ := Rat.mk' 99999999 100 (by decide) (by decide)

/-- `ExpenseValidationRules.currency.minLength` from `expense.entity.ts`. -/
def ExpenseValidationRules.currencyMinLength : Nat := 3

/-- `ExpenseValidationRules.currency.maxLength` from `expense.entity.ts`. -/
def ExpenseValidationRules.currencyMaxLength : Nat := 3

/-- The test of the regex `^[A-Z]{3}$` (`ExpenseValidationRules.currency.pattern`). -/
def ExpenseValidationRules.currencyPatternTest (s : String) : Bool :=
  s.length == 3 && s.data.all (fun c => 'A' ≤ c && c ≤ 'Z')

/-- `ExpenseValidationRules.category.maxLength` from `expense.entity.ts`. -/
def ExpenseValidationRules.categoryMaxLength : Nat := 100

/-- A field-level validation error (`{field, message}`). -/
structure VError where
  field : String
  message : String
deriving DecidableEq, Repr

/-- The `name` checks of `validateCreateExpense` (validator.ts lines 13-24). -/
def createNameErrors (name : Option JsVal) : List VError :=
  if !(optTruthy name) || !(jsIsString name) || (jsTrim (jsStrOf name)).length == 0 then
    [⟨"name", "name is required"⟩]
  else if ExpenseValidationRules.nameMaxLength < (jsStrOf name).length then
    [⟨"name", "name must be at most 255 characters long"⟩]
  else []

/-- The `amount` checks of `validateCreateExpense` (validator.ts lines 27-41). -/
def createAmountErrors : Option JsVal → List VError
  | none => [⟨"amount", "amount is required"⟩]
  | some .nullV => [⟨"amount", "amount is required"⟩]
  | some (.num .nan) => [⟨"amount", "amount must be a number"⟩]
  | some (.num (.val q)) =>
    if q < ExpenseValidationRules.amountMin then
      [⟨"amount", "amount must be at least 0.01"⟩]
    else if ExpenseValidationRules.amountMax < q then
      [⟨"amount", "amount cannot exceed 999999.99"⟩]
    else []
  | some _ => [⟨"amount", "amount must be a number"⟩]

/-- The `currency` checks of `validateCreateExpense` (validator.ts lines 44-62). -/
def createCurrencyErrors (currency : Option JsVal) : List VError :=
  if !(optTruthy currency) || !(jsIsString currency) then
    [⟨"currency", "currency is required"⟩]
  else if (jsStrOf currency).length < ExpenseValidationRules.currencyMinLength then
    [⟨"currency", "currency must be at least 3 characters long"⟩]
  else if ExpenseValidationRules.currencyMaxLength < (jsStrOf currency).length then
    [⟨"currency", "currency must be at most 3 characters long"⟩]
  else if !(ExpenseValidationRules.currencyPatternTest (jsStrOf currency)) then
    [⟨"currency", "currency format is invalid"⟩]
  else []

/-- The `category` checks of `validateCreateExpense` (validator.ts lines 65-78). -/
def createCategoryErrors (category : Option JsVal) : List VError :=
  if !(optTruthy category) || !(jsIsString category) || (jsTrim (jsStrOf category)).length == 0 then
    [⟨"category", "category is required"⟩]
  else if ExpenseValidationRules.categoryMaxLength < (jsStrOf category).length then
    [⟨"category", "category must be at most 100 characters long"⟩]
  else []

/-- The optional `date` checks shared by both validators (validator.ts lines
81-96 and 208-223); `parseDate` models `new Date(s)` with `none` for an
Invalid Date (`isNaN(date.getTime())`). -/
def dateFieldErrors (parseDate : String → Option Int) : Option JsVal → List VError
  | none => []
  | some (.str s) =>
    match parseDate s with
    | some _ => []
    | none => [⟨"date", "date must be a valid ISO string"⟩]
  | some _ => [⟨"date", "date must be a valid ISO string"⟩]

/-- `validateCreateExpense` from validator.ts: the full batch of errors the
create-mode middleware accumulates, in push order. -/
def validateCreateExpense (parseDate : String → Option Int) (body : Body) : List VError :=
  createNameErrors body.name ++ createAmountErrors body.amount ++
  createCurrencyErrors body.currency ++ createCategoryErrors body.category ++
  dateFieldErrors parseDate body.date

/-- The `updateableFields` values of `validateUpdateExpense` (validator.ts line 121). -/
def updateableFieldValues (b : Body) : List (Option JsVal) :=
  [b.name, b.amount, b.currency, b.category, b.date]

/-- `providedFields` of `validateUpdateExpense` (validator.ts lines 122-124):
the recognized fields that are not `undefined`. -/
def providedFields (b : Body) : List (Option JsVal) :=
  (updateableFieldValues b).filter Option.isSome

/-- The `name` checks of `validateUpdateExpense` (validator.ts lines 134-146). -/
def updateNameErrors : Option JsVal → List VError
  | none => []
  | some (.str s) =>
    if (jsTrim s).length == 0 then [⟨"name", "name cannot be empty"⟩]
    else if ExpenseValidationRules.nameMaxLength < s.length then
      [⟨"name", "name must be at most 255 characters long"⟩]
    else []
  | some _ => [⟨"name", "name cannot be empty"⟩]

/-- The `amount` checks of `validateUpdateExpense` (validator.ts lines 149-163). -/
def updateAmountErrors : Option JsVal → List VError
  | none => []
  | some (.num .nan) => [⟨"amount", "amount must be a number"⟩]
  | some (.num (.val q)) =>
    if q < ExpenseValidationRules.amountMin then
      [⟨"amount", "amount must be at least 0.01"⟩]
    else if ExpenseValidationRules.amountMax < q then
      [⟨"amount", "amount cannot exceed 999999.99"⟩]
    else []
  | some _ => [⟨"amount", "amount must be a number"⟩]

/-- The `currency` checks of `validateUpdateExpense` (validator.ts lines 166-188). -/
def updateCurrencyErrors : Option JsVal → List VError
  | none => []
  | some (.str s) =>
    if s.length < ExpenseValidationRules.currencyMinLength then
      [⟨"currency", "currency must be at least 3 characters long"⟩]
    else if ExpenseValidationRules.currencyMaxLength < s.length then
      [⟨"currency", "currency must be at most 3 characters long"⟩]
    else if !(ExpenseValidationRules.currencyPatternTest s) then
      [⟨"currency", "currency format is invalid"⟩]
    else []
  | some _ => [⟨"currency", "currency must be a string"⟩]

/-- The `category` checks of `validateUpdateExpense` (validator.ts lines 191-205). -/
def updateCategoryErrors : Option JsVal → List VError
  | none => []
  | some (.str s) =>
    if (jsTrim s).length == 0 then [⟨"category", "category cannot be empty"⟩]
    else if ExpenseValidationRules.categoryMaxLength < s.length then
      [⟨"category", "category must be at most 100 characters long"⟩]
    else []
  | some _ => [⟨"category", "category cannot be empty"⟩]

/-- `validateUpdateExpense` from validator.ts: the full batch of errors the
update-mode middleware accumulates, in push order. -/
def validateUpdateExpense (parseDate : String → Option Int) (body : Body) : List VError :=
  (if (providedFields body).length == 0 then
    [⟨"general", "At least one field must be provided for update"⟩]
  else []) ++
  updateNameErrors body.name ++ updateAmountErrors body.amount ++
  updateCurrencyErrors body.currency ++ updateCategoryErrors body.category ++
  dateFieldErrors parseDate body.date

/-- The maximal leading run of decimal digits of a character list. -/
def takeDigits : List Char → List Char
  | [] => []
  | c :: cs => if c.isDigit then c :: takeDigits cs else []

/-- The natural number denoted by a list of decimal digits. -/
def digitsToNat (ds : List Char) : Nat :=
  ds.foldl (fun acc c => acc * 10 + (c.toNat - 48)) 0

/-- JavaScript `parseInt(s, 10)`: skip leading whitespace, read an optional
sign and the maximal run of digits; `none` models `NaN` (no digits found). -/
def jsParseInt (s : String) : Option Int :=
  match (jsTrim s).data with
  | '-' :: rest =>
    match takeDigits rest with
    | [] => none
    | ds => some (-(digitsToNat ds : Int))
  | '+' :: rest =>
    match takeDigits rest with
    | [] => none
    | ds => some ((digitsToNat ds : Int))
  | cs =>
    match takeDigits cs with
    | [] => none
    | ds => some ((digitsToNat ds : Int))

/-- `GetExpensesQuery` from expenses.service.ts: the raw string-typed query
parameters (`none` = parameter absent). -/
structure GetExpensesQuery where
  limit : Option String := none
  offset : Option String := none
  fromDate : Option String := none
  toDate : Option String := none
  category : Option String := none
deriving DecidableEq, Repr

/-- `FindAllOptions` from expenses.repository.ts: the normalized, validated
query descriptor (dates as millisecond timestamps). -/
structure FindAllOptions where
  limit : Option Int := none
  offset : Option Int := none
  fromDate : Option Int := none
  toDate : Option Int := none
  category : Option String := none
deriving DecidableEq, Repr

/-- The `limit` block of `parseGetExpensesQuery` (expenses.service.ts lines
238-247): `isNaN(limit) || limit <= 0` then `limit > 100`. -/
def parseLimitParam : Option String → Except String (Option Int)
  | none => .ok none
  | some s =>
    match jsParseInt s with
    | none => .error "Limit must be a positive integer"
    | some l =>
      if l ≤ 0 then .error "Limit must be a positive integer"
      else if 100 < l then .error "Limit cannot exceed 100"
      else .ok (some l)

/-- The `offset` block of `parseGetExpensesQuery` (expenses.service.ts lines
250-256). -/
def parseOffsetParam : Option String → Except String (Option Int)
  | none => .ok none
  | some s =>
    match jsParseInt s with
    | none => .error "Offset must be a non-negative integer"
    | some o =>
      if o < 0 then .error "Offset must be a non-negative integer"
      else .ok (some o)

/-- The `fromDate` block of `parseGetExpensesQuery` (expenses.service.ts lines
259-264); `parseDate` models `new Date(s)` / `isValidDate`. -/
def parseFromDateParam (parseDate : String → Option Int) :
    Option String → Except String (Option Int)
  | none => .ok none
  | some s =>
    match parseDate s with
    | none => .error "fromDate must be a valid ISO date string"
    | some d => .ok (some d)

/-- The `toDate` block of `parseGetExpensesQuery` (expenses.service.ts lines
267-272). -/
def parseToDateParam (parseDate : String → Option Int) :
    Option String → Except String (Option Int)
  | none => .ok none
  | some s =>
    match parseDate s with
    | none => .error "toDate must be a valid ISO date string"
    | some d => .ok (some d)

/-- The date-range block of `parseGetExpensesQuery` (expenses.service.ts lines
275-281): runs only when both dates are present (a JS `Date` object is always
truthy), and fails when `fromDate > toDate`. -/
def dateRangeCheck : Option Int → Option Int → Except String Unit
  | some f, some t => if t < f then .error "fromDate cannot be after toDate" else .ok ()
  | _, _ => .ok ()

/-- The `category` block of `parseGetExpensesQuery` (expenses.service.ts lines
284-289). -/
def parseCategoryParam : Option String → Except String (Option String)
  | none => .ok none
  | some s =>
    if (jsTrim s).length == 0 then .error "Category cannot be empty"
    else .ok (some (jsTrim s))

/-- `parseGetExpensesQuery` from expenses.service.ts: sequential, fail-fast
construction of `FindAllOptions` (each `throw createValidationError` is an
`.error`). -/
def ExpensesService.parseGetExpensesQuery (parseDate : String → Option Int)
    (query : GetExpensesQuery) : Except String FindAllOptions :=
  match parseLimitParam query.limit with
  | .error e => .error e
  | .ok limit =>
    match parseOffsetParam query.offset with
    | .error e => .error e
    | .ok offset =>
      match parseFromDateParam parseDate query.fromDate with
      | .error e => .error e
      | .ok fromDate =>
        match parseToDateParam parseDate query.toDate with
        | .error e => .error e
        | .ok toDate =>
          match dateRangeCheck fromDate toDate with
          | .error e => .error e
          | .ok _ =>
            match parseCategoryParam query.category with
            | .error e => .error e
            | .ok category => .ok ⟨limit, offset, fromDate, toDate, category⟩

/-- A persisted row of the `expenses` table (timestamps in milliseconds). -/
structure Expense where
  id : Int
  name : String
  amount : ℚ
  currency : String
  category : String
  date : Int
  createdAt : Int
  updatedAt : Int
deriving DecidableEq, Repr

/-- The `where` object built by `findAll`/`findAllPaginated`
(expenses.repository.ts lines 51-68 and 96-113): `gte`/`lte` date bounds when
the respective bound is present, and a category equality filter guarded by JS
truthiness (`if (options.category)`, so an empty string imposes no filter). -/
def matchesWhere (options : FindAllOptions) (e : Expense) : Bool :=
  (match options.fromDate with
   | some f => decide (f ≤ e.date)
   | none => true) &&
  (match options.toDate with
   | some t => decide (e.date ≤ t)
   | none => true) &&
  (match options.category with
   | some c => if c = "" then true else decide (e.category = c)
   | none => true)

/-- The ordering `orderBy: [{date: 'desc'}, {id: 'desc'}]`: `a` may come
before `b` iff `a.date > b.date`, or the dates tie and `a.id ≥ b.id`. -/
def expBefore (a b : Expense) : Prop :=
  b.date < a.date ∨ (b.date = a.date ∧ b.id ≤ a.id)

instance : DecidableRel expBefore := fun a b => by
  unfold expBefore; exact inferInstance

instance : IsTotal Expense expBefore :=
  ⟨by intro a b; unfold expBefore; omega⟩

instance : IsTrans Expense expBefore :=
  ⟨by intro a b c hab hbc; unfold expBefore at hab hbc ⊢; omega⟩

/-- The storage engine sorting rows per the `orderBy` clause. -/
def applyOrderBy (l : List Expense) : List Expense :=
  List.insertionSort expBefore l

/-- `findAll` from expenses.repository.ts executed against a list model of
the table: filter by `where`, sort by `orderBy`, then `skip`/`take` only when
`offset`/`limit` are defined. -/
def ExpensesRepository.findAll (options : FindAllOptions) (db : List Expense) :
    List Expense :=
  let sorted := applyOrderBy (db.filter (matchesWhere options))
  let skipped :=
    match options.offset with
    | some k => sorted.drop k.toNat
    | none => sorted
  match options.limit with
  | some k => skipped.take k.toNat
  | none => skipped

/-- `PaginatedExpensesResult` from expenses.repository.ts. -/
structure PaginatedExpensesResult where
  expenses : List Expense
  total : Int
  limit : Int
  offset : Int
  hasNext : Bool
  hasPrevious : Bool
deriving DecidableEq, Repr

/-- `findAllPaginated` from expenses.repository.ts executed against a list
model of the table: `limit = options.limit || 10` (JS falsy test, so `0`
would also default) and `offset = options.offset || 0`, with
`hasNext = offset + limit < total` and `hasPrevious = offset > 0`. -/
def ExpensesRepository.findAllPaginated (options : FindAllOptions)
    (db : List Expense) : PaginatedExpensesResult :=
  let filtered := db.filter (matchesWhere options)
  let sorted := applyOrderBy filtered
  let limit : Int :=
    match options.limit with
    | some l => if l = 0 then 10 else l
    | none => 10
  let offset : Int :=
    match options.offset with
    | some o => o
    | none => 0
  { expenses := (sorted.drop offset.toNat).take limit.toNat
    total := (filtered.length : Int)
    limit := limit
    offset := offset
    hasNext := decide (offset + limit < (filtered.length : Int))
    hasPrevious := decide (0 < offset) }

/-- The two result shapes of `getAllExpenses`: a bare array or a page. -/
inductive ExpensesResult where
  | plain (items : List Expense)
  | paginated (page : PaginatedExpensesResult)
deriving DecidableEq, Repr

/-- `getAllExpenses` from expenses.service.ts: parse the query, then return a
paginated wrapper iff `limit` or `offset` came out defined. -/
def ExpensesService.getAllExpenses (parseDate : String → Option Int)
    (query : GetExpensesQuery) (db : List Expense) : Except String ExpensesResult :=
  match ExpensesService.parseGetExpensesQuery parseDate query with
  | .error e => .error e
  | .ok options =>
    if options.limit.isSome || options.offset.isSome then
      .ok (.paginated (ExpensesRepository.findAllPaginated options db))
    else
      .ok (.plain (ExpensesRepository.findAll options db))

/-- `CreateExpenseDto` from expenses.service.ts. The controller casts
`req.body` to this interface, so `extra` carries any unknown runtime keys the
cast leaves in place; the typed fields carry the recognized values. -/
structure CreateExpenseDto where
  name : String
  amount : ℚ
  currency : String
  category : String
  date : Option String := none
  extra : List (String × JsVal) := []
deriving DecidableEq, Repr

/-- `validateCreateExpenseDto` from expenses.service.ts (lines 295-317):
fail-fast checks; the date check is guarded by JS truthiness (`dto.date &&
!this.isValidDate(dto.date)`), so an empty string skips it. The `typeof
dto.amount !== 'number'` disjunct is subsumed by the typed `amount` field. -/
def ExpensesService.validateCreateExpenseDto (parseDate : String → Option Int)
    (dto : CreateExpenseDto) : Except String Unit :=
  if dto.name == "" || (jsTrim dto.name).length == 0 then .error "Name is required"
  else if dto.amount ≤ 0 then .error "Amount must be a positive number"
  else if dto.currency == "" || (jsTrim dto.currency).length == 0 then
    .error "Currency is required"
  else if dto.category == "" || (jsTrim dto.category).length == 0 then
    .error "Category is required"
  else
    match dto.date with
    | some s =>
      if s ≠ "" && (parseDate s).isNone then
        .error "Invalid date format. Use ISO string format."
      else .ok ()
    | none => .ok ()

/-- The record handed to `expensesRepository.create` by `createExpense`: only
the five recognized fields, with `date : Option Int` a JS `Date` (`none` =
Invalid Date). -/
structure NewExpenseData where
  name : String
  amount : ℚ
  currency : String
  category : String
  date : Option Int
deriving DecidableEq, Repr

/-- `createExpense` from expenses.service.ts (lines 48-71): validate, then
build `expenseData` from the named fields only;
`date: createExpenseDto.date ? new Date(createExpenseDto.date) : new Date()`
uses JS string truthiness, so an empty string falls back to `now`. -/
def ExpensesService.createExpense (parseDate : String → Option Int) (now : Int)
    (dto : CreateExpenseDto) : Except String NewExpenseData :=
  match ExpensesService.validateCreateExpenseDto parseDate dto with
  | .error e => .error e
  | .ok _ =>
    .ok { name := dto.name
          amount := dto.amount
          currency := dto.currency
          category := dto.category
          date :=
            match dto.date with
            | some s => if s ≠ "" then parseDate s else some now
            | none => some now }

/-- `findById` from expenses.repository.ts over the list model of the table. -/
def ExpensesRepository.findById (id : Int) (db : List Expense) : Option Expense :=
  db.find? (fun e => e.id == id)

/-- The typed column values bound into an `UPDATE` of the `expenses` table. -/
structure UpdateFields where
  name : Option String := none
  amount : Option ℚ := none
  currency : Option String := none
  category : Option String := none
  date : Option Int := none
deriving DecidableEq, Repr

/-- Modelled from the spec: the storage engine (an external collaborator,
spec section 6) executing the update's `data` object against the `expenses`
table of migration.sql. Each recognized key binds to its column (the service
has already converted a string `date` to a `Date`); unknown keys have no
column in the table and bind to nothing. -/
def extractUpdateFields (parseDate : String → Option Int) (b : Body) : UpdateFields :=
  { name :=
      match b.name with
      | some (.str s) => some s
      | _ => none
    amount :=
      match b.amount with
      | some (.num (.val q)) => some q
      | _ => none
    currency :=
      match b.currency with
      | some (.str s) => some s
      | _ => none
    category :=
      match b.category with
      | some (.str s) => some s
      | _ => none
    date :=
      match b.date with
      | some (.str s) => parseDate s
      | _ => none }

/-- The storage engine applying an `UPDATE` to one row: provided columns are
assigned, `updated_at` is refreshed, every other column keeps its prior
value. -/
def applyUpdateRow (u : UpdateFields) (now : Int) (e : Expense) : Expense :=
  { e with
    name := u.name.getD e.name
    amount := u.amount.getD e.amount
    currency := u.currency.getD e.currency
    category := u.category.getD e.category
    date := u.date.getD e.date
    updatedAt := now }

/-- `update` from expenses.repository.ts (lines 191-210): look the row up
first and return `null` when absent; otherwise update it and return the
updated row. -/
def ExpensesRepository.update (u : UpdateFields) (now : Int) (id : Int)
    (db : List Expense) : Option Expense × List Expense :=
  match ExpensesRepository.findById id db with
  | none => (none, db)
  | some row =>
    (some (applyUpdateRow u now row),
     db.map (fun e => if e.id == id then applyUpdateRow u now e else e))

/-- The service-level `amount` guard of `updateExpense` (expenses.service.ts
lines 173-178): `typeof amount !== 'number' || amount <= 0` (note `NaN <= 0`
is false in JS, so NaN passes this particular guard). -/
def svcAmountCheck : Option JsVal → Except String Unit
  | none => .ok ()
  | some (.num .nan) => .ok ()
  | some (.num (.val q)) =>
    if q ≤ 0 then .error "Amount must be a positive number" else .ok ()
  | some _ => .error "Amount must be a positive number"

/-- The service-level `name` guard of `updateExpense` (expenses.service.ts
lines 180-185): `!name || name.trim().length === 0`; calling `.trim()` on a
truthy non-string would raise a TypeError in JS. -/
def svcNameCheck : Option JsVal → Except String Unit
  | none => .ok ()
  | some v =>
    if !(jsTruthy v) then .error "Name cannot be empty"
    else
      match v with
      | .str s =>
        if (jsTrim s).length == 0 then .error "Name cannot be empty" else .ok ()
      | _ => .error "TypeError: updateData.name.trim is not a function"

/-- `updateExpense` from expenses.service.ts (lines 159-197) composed with the
repository update: id guard, `Object.keys(updateData).length === 0` guard
(unknown keys count), `amount` and `name` guards, string-`date` conversion,
then the repository update. The embedded `id` is an `Int`, so the
`Number.isInteger(id)` half of the guard always holds. -/
def ExpensesService.updateExpense (parseDate : String → Option Int) (now : Int)
    (id : Int) (body : Body) (db : List Expense) :
    Except String (Option Expense × List Expense) :=
  if id ≤ 0 then .error "Invalid expense ID"
  else if (providedFields body).length + body.extra.length == 0 then
    .error "No update data provided"
  else
    match svcAmountCheck body.amount with
    | .error e => .error e
    | .ok _ =>
      match svcNameCheck body.name with
      | .error e => .error e
      | .ok _ =>
        .ok (ExpensesRepository.update (extractUpdateFields parseDate body) now id db)

/-- `delete` from expenses.repository.ts (lines 213-229): the Prisma delete
throws "Record to delete does not exist" when no row matches, which the
repository catches and converts to `false`; on success the row is removed and
`true` is returned. -/
def ExpensesRepository.delete (id : Int) (db : List Expense) : Bool × List Expense :=
  if db.any (fun e => e.id == id) then
    (true, db.filter (fun e => !(e.id == id)))
  else
    (false, db)

/-- `deleteExpense` from expenses.service.ts (lines 200-211): positive-integer
id guard, then the repository delete. -/
def ExpensesService.deleteExpense (id : Int) (db : List Expense) :
    Except String (Bool × List Expense) :=
  if id ≤ 0 then .error "Invalid expense ID"
  else .ok (ExpensesRepository.delete id db)

/-- A concrete row for evaluating the embedding on concrete inputs. -/
def sampleExpense (id : Int) (date : Int) : Expense :=
  { id := id
    name := "Coffee"
    amount := 5
    currency := "USD"
    category := "Food"
    date := date
    createdAt := 0
    updatedAt := 0 }

/-- Five concrete rows with distinct ids. -/
def sampleDb5 : List Expense :=
  [sampleExpense 1 100, sampleExpense 2 200, sampleExpense 3 300,
   sampleExpense 4 400, sampleExpense 5 500]

/-- Three concrete rows sharing one `date` value, inserted with ids 1, 2, 3. -/
def sampleDbTie : List Expense :=
  [sampleExpense 1 100, sampleExpense 2 100, sampleExpense 3 100]

/-- The literal 0.009 (just below the amount lower bound). -/
def sampleLowAmount : ℚ := Rat.mk' 9 1000 (by decide) (by decide)

/-- A create body that is valid in every field except possibly `amount`. -/
def payloadWithAmount (q : ℚ) : Body :=
  { name := some (.str "Coffee")
    amount := some (.num (.val q))
    currency := some (.str "USD")
    category := some (.str "Food") }

/-- The amount bounds are the decimals 0.01 and 999999.99 of the source. -/
theorem amountBounds_eq :
    ExpenseValidationRules.amountMin = (0.01 : ℚ) ∧
    ExpenseValidationRules.amountMax = (999999.99 : ℚ) := by
  constructor
  · unfold ExpenseValidationRules.amountMin
    rw [Rat.mk'_eq_divInt, Rat.divInt_eq_div]
    norm_num
  · unfold ExpenseValidationRules.amountMax
    rw [Rat.mk'_eq_divInt, Rat.divInt_eq_div]
    norm_num

/-- A failing `offset` block always carries the offset error message. -/
theorem parseOffsetParam_error_eq {x : Option String} {e : String}
    (h : parseOffsetParam x = .error e) :
    e = "Offset must be a non-negative integer" := by
  cases x with
  | none => simp [parseOffsetParam] at h
  | some s =>
    simp only [parseOffsetParam] at h
    cases hjs : jsParseInt s with
    | none => simp [hjs] at h; exact h.symm
    | some o =>
      rw [hjs] at h
      by_cases ho : o < 0
      · simp [ho] at h; exact h.symm
      · simp [ho] at h

/-- A failing `fromDate` block always carries the fromDate error message. -/
theorem parseFromDateParam_error_eq {pd : String → Option Int} {x : Option String}
    {e : String} (h : parseFromDateParam pd x = .error e) :
    e = "fromDate must be a valid ISO date string" := by
  cases x with
  | none => simp [parseFromDateParam] at h
  | some s =>
    simp only [parseFromDateParam] at h
    cases hd : pd s with
    | none => simp [hd] at h; exact h.symm
    | some d => simp [hd] at h

/-- A failing `toDate` block always carries the toDate error message. -/
theorem parseToDateParam_error_eq {pd : String → Option Int} {x : Option String}
    {e : String} (h : parseToDateParam pd x = .error e) :
    e = "toDate must be a valid ISO date string" := by
  cases x with
  | none => simp [parseToDateParam] at h
  | some s =>
    simp only [parseToDateParam] at h
    cases hd : pd s with
    | none => simp [hd] at h; exact h.symm
    | some d => simp [hd] at h

/-- A failing date-range block always carries the range error message. -/
theorem dateRangeCheck_error_eq {f t : Option Int} {e : String}
    (h : dateRangeCheck f t = .error e) : e = "fromDate cannot be after toDate" := by
  cases f with
  | none => simp [dateRangeCheck] at h
  | some fv =>
    cases t with
    | none => simp [dateRangeCheck] at h
    | some tv =>
      simp only [dateRangeCheck] at h
      by_cases hlt : tv < fv
      · simp [hlt] at h; exact h.symm
      · simp [hlt] at h

/-- A failing `category` block always carries the category error message. -/
theorem parseCategoryParam_error_eq {x : Option String} {e : String}
    (h : parseCategoryParam x = .error e) : e = "Category cannot be empty" := by
  cases x with
  | none => simp [parseCategoryParam] at h
  | some s =>
    simp only [parseCategoryParam] at h
    by_cases hz : (jsTrim s).length == 0
    · simp [hz] at h; exact h.symm
    · simp [hz] at h

/-- A failing `limit` block carries one of the two limit error messages. -/
theorem parseLimitParam_error_eq {x : Option String} {e : String}
    (h : parseLimitParam x = .error e) :
    e = "Limit must be a positive integer" ∨ e = "Limit cannot exceed 100" := by
  cases x with
  | none => simp [parseLimitParam] at h
  | some s =>
    simp only [parseLimitParam] at h
    cases hjs : jsParseInt s with
    | none => simp [hjs] at h; exact .inl h.symm
    | some l =>
      rw [hjs] at h
      by_cases hl : l ≤ 0
      · simp [hl] at h; exact .inl h.symm
      · by_cases hl2 : 100 < l
        · simp [hl, hl2] at h; exact .inr h.symm
        · simp [hl, hl2] at h

/-- The exceed error from the `limit` block implies the positivity check had
already passed on the parsed value. -/
theorem parseLimitParam_exceed_inv {x : Option String}
    (h : parseLimitParam x = .error "Limit cannot exceed 100") :
    ∃ s l, x = some s ∧ jsParseInt s = some l ∧ 0 < l ∧ 100 < l := by
  cases x with
  | none => simp [parseLimitParam] at h
  | some s =>
    simp only [parseLimitParam] at h
    cases hjs : jsParseInt s with
    | none => simp [hjs] at h
    | some l =>
      rw [hjs] at h
      by_cases hl : l ≤ 0
      · simp [hl] at h
      · by_cases hl2 : 100 < l
        · exact ⟨s, l, rfl, hjs, by omega, hl2⟩
        · simp [hl, hl2] at h

/-- Inversion of a successful `parseGetExpensesQuery` run into its six
sequential blocks. -/
theorem parseGetExpensesQuery_inv {pd : String → Option Int} {q : GetExpensesQuery}
    {o : FindAllOptions}
    (h : ExpensesService.parseGetExpensesQuery pd q = .ok o) :
    parseLimitParam q.limit = .ok o.limit ∧
    parseOffsetParam q.offset = .ok o.offset ∧
    parseFromDateParam pd q.fromDate = .ok o.fromDate ∧
    parseToDateParam pd q.toDate = .ok o.toDate ∧
    dateRangeCheck o.fromDate o.toDate = .ok () ∧
    parseCategoryParam q.category = .ok o.category := by
  unfold ExpensesService.parseGetExpensesQuery at h
  split at h
  · exact absurd h (by simp)
  next lv h1 =>
    split at h
    · exact absurd h (by simp)
    next ov h2 =>
      split at h
      · exact absurd h (by simp)
      next fv h3 =>
        split at h
        · exact absurd h (by simp)
        next tv h4 =>
          split at h
          · exact absurd h (by simp)
          next u h5 =>
            split at h
            · exact absurd h (by simp)
            next cv h6 =>
              cases u
              simp only [Except.ok.injEq] at h
              subst h
              exact ⟨h1, h2, h3, h4, h5, h6⟩

/-- Claim C10: for every create payload whose `date` field is the empty
string, the service treats the date as absent: the date-format validation is
skipped and the persisted record's date defaults to the creation instant,
exactly as if `date` had been omitted. -/
theorem createExpense_emptyDate_spec :
    (∀ (parseDate : String → Option Int) (now : Int) (n c g : String) (a : ℚ)
      (e : List (String × JsVal)),
      ExpensesService.createExpense parseDate now
        { name := n, amount := a, currency := c, category := g,
          date := some "", extra := e } =
      ExpensesService.createExpense parseDate now
        { name := n, amount := a, currency := c, category := g,
          date := none, extra := e })
  ∧ ExpensesService.createExpense (fun _ => none) 12345
      { name := "Lunch", amount := 5, currency := "USD", category := "Food",
        date := some "" } =
    .ok { name := "Lunch", amount := 5, currency := "USD", category := "Food",
          date := some 12345 } := by
  exact ⟨fun parseDate now n c g a e => rfl, by decide⟩

/-- Claim C9: for every well-formed positive id, delete reports whether a row
existed: deleting an existing id returns `true` and removes the row, and a
second delete of the same id returns `false` (a not-found outcome), not an
error. -/
theorem deleteExpense_idempotent_spec (id : Int) (db : List Expense)
    (hid : 0 < id) :
    ∃ existed db2,
      ExpensesService.deleteExpense id db = .ok (existed, db2) ∧
      existed = db.any (fun e => e.id == id) ∧
      db2 = db.filter (fun e => !(e.id == id)) ∧
      ExpensesService.deleteExpense id db2 = .ok (false, db2) := by
  have hnot : ¬ id ≤ 0 := by omega
  have hfany : ∀ l : List Expense,
      (l.filter (fun e => !(e.id == id))).any (fun e => e.id == id) = false := by
    intro l
    induction l with
    | nil => rfl
    | cons x xs ih =>
      by_cases hx : x.id == id
      · simp only [List.filter_cons, hx, Bool.not_true, if_false, cond_false]
        exact ih
      · have hx' : (x.id == id) = false := by
          cases hxx : (x.id == id) with
          | true => exact absurd hxx hx
          | false => rfl
        simp [List.filter_cons, hx', ih]
  cases hany : db.any (fun e => e.id == id) with
  | true =>
    refine ⟨true, db.filter (fun e => !(e.id == id)), ?_, rfl, rfl, ?_⟩
    · simp [ExpensesService.deleteExpense, ExpensesRepository.delete, hnot, hany]
    · simp [ExpensesService.deleteExpense, ExpensesRepository.delete, hnot, hfany db]
  | false =>
    have hfilter : db.filter (fun e => !(e.id == id)) = db := by
      apply List.filter_eq_self.mpr
      intro a ha
      have haa : (a.id == id) = false := by
        cases hxx : (a.id == id) with
        | true =>
          have h2 : db.any (fun e => e.id == id) = true :=
            List.any_eq_true.mpr ⟨a, ha, hxx⟩
          rw [h2] at hany
          cases hany
        | false => rfl
      simp [haa]
    refine ⟨false, db, ?_, rfl, hfilter.symm, ?_⟩
    · simp [ExpensesService.deleteExpense, ExpensesRepository.delete, hnot, hany]
    · simp [ExpensesService.deleteExpense, ExpensesRepository.delete, hnot, hany]

/-- Witness for C9 at a concrete table and id. -/
theorem deleteExpense_idempotent_spec_witness :
    (0 : Int) < 1 ∧
    ∃ existed db2,
      ExpensesService.deleteExpense 1 [sampleExpense 1 100] = .ok (existed, db2) ∧
      existed = [sampleExpense 1 100].any (fun e => e.id == 1) ∧
      db2 = [sampleExpense 1 100].filter (fun e => !(e.id == 1)) ∧
      ExpensesService.deleteExpense 1 db2 = .ok (false, db2) :=
  ⟨by decide, deleteExpense_idempotent_spec 1 [sampleExpense 1 100] (by decide)⟩

/-- Claim C6: for every update request supplying zero recognized fields, the
update-mode validator fails with exactly one error on the synthetic field
`general`; unrecognized extra keys do not count as recognized fields. -/
theorem validateUpdateExpense_general_spec
    (parseDate : String → Option Int) (b : Body)
    (hn : b.name = none) (ha : b.amount = none) (hc : b.currency = none)
    (hg : b.category = none) (hd : b.date = none) :
    validateUpdateExpense parseDate b =
      [⟨"general", "At least one field must be provided for update"⟩] := by
  simp [validateUpdateExpense, providedFields, updateableFieldValues,
    hn, ha, hc, hg, hd, updateNameErrors, updateAmountErrors,
    updateCurrencyErrors, updateCategoryErrors, dateFieldErrors]

/-- Witness for C6: the empty payload and a payload with only an unrecognized
key both yield the single `general` error. -/
theorem validateUpdateExpense_general_spec_witness :
    validateUpdateExpense (fun _ => none) {} =
      [⟨"general", "At least one field must be provided for update"⟩] ∧
    validateUpdateExpense (fun _ => none) { extra := [("invalidField", .str "x")] } =
      [⟨"general", "At least one field must be provided for update"⟩] :=
  ⟨validateUpdateExpense_general_spec (fun _ => none) {} rfl rfl rfl rfl rfl,
   validateUpdateExpense_general_spec (fun _ => none)
     { extra := [("invalidField", .str "x")] } rfl rfl rfl rfl rfl⟩

/-- Claim C2: for every list query supplying `limit`: a value that does not
parse to a positive integer fails with "Limit must be a positive integer"; a
parsed positive value above 100 fails with the distinct error "Limit cannot
exceed 100"; and the exceed error can only arise after the positivity check
has passed on the parsed value. -/
theorem parseGetExpensesQuery_limit_spec (parseDate : String → Option Int)
    (q : GetExpensesQuery) (s : String) (hs : q.limit = some s) :
    (jsParseInt s = none →
      ExpensesService.parseGetExpensesQuery parseDate q =
        .error "Limit must be a positive integer")
  ∧ (∀ l, jsParseInt s = some l → l ≤ 0 →
      ExpensesService.parseGetExpensesQuery parseDate q =
        .error "Limit must be a positive integer")
  ∧ (∀ l, jsParseInt s = some l → 100 < l →
      ExpensesService.parseGetExpensesQuery parseDate q =
        .error "Limit cannot exceed 100")
  ∧ (ExpensesService.parseGetExpensesQuery parseDate q =
        .error "Limit cannot exceed 100" →
      ∃ l, jsParseInt s = some l ∧ 0 < l ∧ 100 < l) := by
  refine ⟨?_, ?_, ?_, ?_⟩
  · intro hn
    have hl : parseLimitParam q.limit = .error "Limit must be a positive integer" := by
      rw [hs]; simp [parseLimitParam, hn]
    unfold ExpensesService.parseGetExpensesQuery
    rw [hl]
  · intro l hl0 hle
    have hl : parseLimitParam q.limit = .error "Limit must be a positive integer" := by
      rw [hs]; simp [parseLimitParam, hl0, hle]
    unfold ExpensesService.parseGetExpensesQuery
    rw [hl]
  · intro l hl0 hgt
    have hle : ¬ l ≤ 0 := by omega
    have hl : parseLimitParam q.limit = .error "Limit cannot exceed 100" := by
      rw [hs]; simp [parseLimitParam, hl0, hle, hgt]
    unfold ExpensesService.parseGetExpensesQuery
    rw [hl]
  · intro hres
    unfold ExpensesService.parseGetExpensesQuery at hres
    split at hres
    next e h1 =>
      simp only [Except.error.injEq] at hres
      subst hres
      rcases parseLimitParam_exceed_inv h1 with ⟨s2, l, hs2, hjs, hpos, hgt⟩
      rw [hs] at hs2
      injection hs2 with hss
      subst hss
      exact ⟨l, hjs, hpos, hgt⟩
    next lv h1 =>
      split at hres
      next e h2 =>
        simp only [Except.error.injEq] at hres
        have heq := parseOffsetParam_error_eq h2
        rw [heq] at hres
        exact absurd hres (by decide)
      next ov h2 =>
        split at hres
        next e h3 =>
          simp only [Except.error.injEq] at hres
          have heq := parseFromDateParam_error_eq h3
          rw [heq] at hres
          exact absurd hres (by decide)
        next fv h3 =>
          split at hres
          next e h4 =>
            simp only [Except.error.injEq] at hres
            have heq := parseToDateParam_error_eq h4
            rw [heq] at hres
            exact absurd hres (by decide)
          next tv h4 =>
            split at hres
            next e h5 =>
              simp only [Except.error.injEq] at hres
              have heq := dateRangeCheck_error_eq h5
              rw [heq] at hres
              exact absurd hres (by decide)
            next u h5 =>
              split at hres
              next e h6 =>
                simp only [Except.error.injEq] at hres
                have heq := parseCategoryParam_error_eq h6
                rw [heq] at hres
                exact absurd hres (by decide)
              next cv h6 => exact absurd hres (by simp)

/-- Witness for C2: `limit=0` and `limit=-1` are rejected as not positive,
`limit=150` is rejected with the distinct exceed error. -/
theorem parseGetExpensesQuery_limit_spec_witness :
    ExpensesService.parseGetExpensesQuery (fun _ => none) { limit := some "0" } =
      .error "Limit must be a positive integer" ∧
    ExpensesService.parseGetExpensesQuery (fun _ => none) { limit := some "-1" } =
      .error "Limit must be a positive integer" ∧
    ExpensesService.parseGetExpensesQuery (fun _ => none) { limit := some "150" } =
      .error "Limit cannot exceed 100" :=
  ⟨(parseGetExpensesQuery_limit_spec (fun _ => none) _ "0" rfl).2.1 0
      (by decide) (by decide),
   (parseGetExpensesQuery_limit_spec (fun _ => none) _ "-1" rfl).2.1 (-1)
      (by decide) (by decide),
   (parseGetExpensesQuery_limit_spec (fun _ => none) _ "150" rfl).2.2.1 150
      (by decide) (by decide)⟩

/-- A degenerate date range `fromDate = toDate = d` filters exactly for rows
at instant `d`, because both bounds are inclusive. -/
theorem matchesWhere_eq_point (d : Int) (e : Expense) :
    matchesWhere { fromDate := some d, toDate := some d } e =
      decide (e.date = d) := by
  simp only [matchesWhere, Bool.and_true, Bool.and_eq_decide]
  exact decide_eq_decide.mpr (by omega)

/-- Claim C3: when both dates are supplied and both parse, `fromDate > toDate`
fails with "fromDate cannot be after toDate", and that comparison runs only
after each date individually validated (an individually invalid date yields
its field-specific error instead); an equal pair is accepted and the
resulting filter matches rows exactly at that instant (inclusive bounds). -/
theorem parseGetExpensesQuery_dateRange_spec (parseDate : String → Option Int)
    (q : GetExpensesQuery) (fs ts : String)
    (hf : q.fromDate = some fs) (ht : q.toDate = some ts)
    (hlim : ∃ v, parseLimitParam q.limit = .ok v)
    (hoff : ∃ v, parseOffsetParam q.offset = .ok v) :
    (parseDate fs = none →
      ExpensesService.parseGetExpensesQuery parseDate q =
        .error "fromDate must be a valid ISO date string")
  ∧ (∀ f, parseDate fs = some f → parseDate ts = none →
      ExpensesService.parseGetExpensesQuery parseDate q =
        .error "toDate must be a valid ISO date string")
  ∧ (∀ f t, parseDate fs = some f → parseDate ts = some t → t < f →
      ExpensesService.parseGetExpensesQuery parseDate q =
        .error "fromDate cannot be after toDate")
  ∧ (∀ f t, parseDate fs = some f → parseDate ts = some t → f ≤ t →
      (∃ c, parseCategoryParam q.category = .ok c) →
      ∃ opts, ExpensesService.parseGetExpensesQuery parseDate q = .ok opts ∧
        opts.fromDate = some f ∧ opts.toDate = some t)
  ∧ (∀ d e2, matchesWhere { fromDate := some d, toDate := some d } e2 =
      decide (e2.date = d))
  ∧ (∀ d db x, x ∈ ExpensesRepository.findAll
        { fromDate := some d, toDate := some d } db ↔ x ∈ db ∧ x.date = d) := by
  obtain ⟨lv, hl⟩ := hlim
  obtain ⟨ov, ho⟩ := hoff
  refine ⟨?_, ?_, ?_, ?_, matchesWhere_eq_point, ?_⟩
  · intro hn
    have hfrom : parseFromDateParam parseDate q.fromDate =
        .error "fromDate must be a valid ISO date string" := by
      rw [hf]; simp [parseFromDateParam, hn]
    simp only [ExpensesService.parseGetExpensesQuery, hl, ho, hfrom]
  · intro f hff htn
    have hfrom : parseFromDateParam parseDate q.fromDate = .ok (some f) := by
      rw [hf]; simp [parseFromDateParam, hff]
    have hto : parseToDateParam parseDate q.toDate =
        .error "toDate must be a valid ISO date string" := by
      rw [ht]; simp [parseToDateParam, htn]
    simp only [ExpensesService.parseGetExpensesQuery, hl, ho, hfrom, hto]
  · intro f t hff htt hlt
    have hfrom : parseFromDateParam parseDate q.fromDate = .ok (some f) := by
      rw [hf]; simp [parseFromDateParam, hff]
    have hto : parseToDateParam parseDate q.toDate = .ok (some t) := by
      rw [ht]; simp [parseToDateParam, htt]
    have hrange : dateRangeCheck (some f) (some t) =
        .error "fromDate cannot be after toDate" := by
      simp [dateRangeCheck, hlt]
    simp only [ExpensesService.parseGetExpensesQuery, hl, ho, hfrom, hto, hrange]
  · intro f t hff htt hle hcat
    obtain ⟨c, hc⟩ := hcat
    have hfrom : parseFromDateParam parseDate q.fromDate = .ok (some f) := by
      rw [hf]; simp [parseFromDateParam, hff]
    have hto : parseToDateParam parseDate q.toDate = .ok (some t) := by
      rw [ht]; simp [parseToDateParam, htt]
    have hnlt : ¬ t < f := by omega
    have hrange : dateRangeCheck (some f) (some t) = .ok () := by
      simp [dateRangeCheck, hnlt]
    refine ⟨⟨lv, ov, some f, some t, c⟩, ?_, rfl, rfl⟩
    simp only [ExpensesService.parseGetExpensesQuery, hl, ho, hfrom, hto, hrange, hc]
  · intro d db x
    have hform : ExpensesRepository.findAll
        { fromDate := some d, toDate := some d } db =
        applyOrderBy (db.filter
          (matchesWhere { fromDate := some d, toDate := some d })) := rfl
    rw [hform, applyOrderBy,
      (List.perm_insertionSort expBefore _).mem_iff, List.mem_filter,
      matchesWhere_eq_point, decide_eq_true_eq]

/-- Witness for C3: a reversed range is rejected; an equal-endpoint range is
accepted with both bounds at that instant. -/
theorem parseGetExpensesQuery_dateRange_spec_witness :
    ExpensesService.parseGetExpensesQuery
        (fun s => if s = "B" then some 2000 else some 1000)
        { fromDate := some "B", toDate := some "A" } =
      .error "fromDate cannot be after toDate" ∧
    (∃ opts, ExpensesService.parseGetExpensesQuery
        (fun s => if s = "B" then some 2000 else some 1000)
        { fromDate := some "A", toDate := some "A" } = .ok opts ∧
      opts.fromDate = some 1000 ∧ opts.toDate = some 1000) :=
  ⟨(parseGetExpensesQuery_dateRange_spec
      (fun s => if s = "B" then some 2000 else some 1000)
      { fromDate := some "B", toDate := some "A" } "B" "A" rfl rfl
      ⟨none, rfl⟩ ⟨none, rfl⟩).2.2.1 2000 1000 (by decide) (by decide) (by decide),
   (parseGetExpensesQuery_dateRange_spec
      (fun s => if s = "B" then some 2000 else some 1000)
      { fromDate := some "A", toDate := some "A" } "A" "A" rfl rfl
      ⟨none, rfl⟩ ⟨none, rfl⟩).2.2.2.1 1000 1000 (by decide) (by decide)
      (by decide) ⟨none, rfl⟩⟩

/-- Every error pushed by the `name` block names the `name` field. -/
theorem createNameErrors_field {x : Option JsVal} {err : VError}
    (h : err ∈ createNameErrors x) : err.field = "name" := by
  unfold createNameErrors at h
  split at h
  · simp at h; rw [h]
  · split at h
    · simp at h; rw [h]
    · simp at h

/-- Every error pushed by the `currency` block names the `currency` field. -/
theorem createCurrencyErrors_field {x : Option JsVal} {err : VError}
    (h : err ∈ createCurrencyErrors x) : err.field = "currency" := by
  unfold createCurrencyErrors at h
  split at h
  · simp at h; rw [h]
  · split at h
    · simp at h; rw [h]
    · split at h
      · simp at h; rw [h]
      · split at h
        · simp at h; rw [h]
        · simp at h

/-- Every error pushed by the `category` block names the `category` field. -/
theorem createCategoryErrors_field {x : Option JsVal} {err : VError}
    (h : err ∈ createCategoryErrors x) : err.field = "category" := by
  unfold createCategoryErrors at h
  split at h
  · simp at h; rw [h]
  · split at h
    · simp at h; rw [h]
    · simp at h

/-- Every error pushed by the `date` block names the `date` field. -/
theorem dateFieldErrors_field {pd : String → Option Int} {x : Option JsVal}
    {err : VError} (h : err ∈ dateFieldErrors pd x) : err.field = "date" := by
  unfold dateFieldErrors at h
  split at h
  · simp at h
  · split at h
    · simp at h
    · simp at h; rw [h]
  · simp at h; rw [h]

/-- An amount-field error of the create validator can only come from the
amount block. -/
theorem mem_validateCreate_amount_iff (parseDate : String → Option Int)
    (b : Body) (err : VError) (hf : err.field = "amount") :
    err ∈ validateCreateExpense parseDate b ↔ err ∈ createAmountErrors b.amount := by
  unfold validateCreateExpense
  simp only [List.mem_append, or_assoc]
  constructor
  · rintro (h | h | h | h | h)
    · exact absurd (createNameErrors_field h) (by rw [hf]; decide)
    · exact h
    · exact absurd (createCurrencyErrors_field h) (by rw [hf]; decide)
    · exact absurd (createCategoryErrors_field h) (by rw [hf]; decide)
    · exact absurd (dateFieldErrors_field h) (by rw [hf]; decide)
  · intro h
    exact Or.inr (Or.inl h)

/-- Claim C4: the create-mode validator returns the complete batch of errors
in one pass: given that every present required field passes its own checks
and the optional date check passes, the error list is exactly one "required"
error per missing required field (so the fully-present payload yields the
empty list). -/
theorem validateCreateExpense_batch_spec (parseDate : String → Option Int)
    (b : Body)
    (hn : ∀ v, b.name = some v → createNameErrors (some v) = [])
    (ha : ∀ v, b.amount = some v → createAmountErrors (some v) = [])
    (hc : ∀ v, b.currency = some v → createCurrencyErrors (some v) = [])
    (hg : ∀ v, b.category = some v → createCategoryErrors (some v) = [])
    (hd : dateFieldErrors parseDate b.date = []) :
    validateCreateExpense parseDate b =
      (if b.name = none then [⟨"name", "name is required"⟩] else []) ++
      (if b.amount = none then [⟨"amount", "amount is required"⟩] else []) ++
      (if b.currency = none then [⟨"currency", "currency is required"⟩] else []) ++
      (if b.category = none then [⟨"category", "category is required"⟩] else []) := by
  have h1 : createNameErrors b.name =
      (if b.name = none then [⟨"name", "name is required"⟩] else []) := by
    cases hbn : b.name with
    | none => rfl
    | some v => simp [hn v hbn]
  have h2 : createAmountErrors b.amount =
      (if b.amount = none then [⟨"amount", "amount is required"⟩] else []) := by
    cases hbn : b.amount with
    | none => rfl
    | some v => simp [ha v hbn]
  have h3 : createCurrencyErrors b.currency =
      (if b.currency = none then [⟨"currency", "currency is required"⟩] else []) := by
    cases hbn : b.currency with
    | none => rfl
    | some v => simp [hc v hbn]
  have h4 : createCategoryErrors b.category =
      (if b.category = none then [⟨"category", "category is required"⟩] else []) := by
    cases hbn : b.category with
    | none => rfl
    | some v => simp [hg v hbn]
  unfold validateCreateExpense
  rw [h1, h2, h3, h4, hd]
  simp

/-- Witness for C4: all four required fields missing gives four errors in one
batch, two missing gives exactly those two, and a fully valid payload gives
the empty list. -/
theorem validateCreateExpense_batch_spec_witness :
    validateCreateExpense (fun _ => none) {} =
      [⟨"name", "name is required"⟩, ⟨"amount", "amount is required"⟩,
       ⟨"currency", "currency is required"⟩, ⟨"category", "category is required"⟩] ∧
    validateCreateExpense (fun _ => none)
      { currency := some (.str "USD"), category := some (.str "Food") } =
      [⟨"name", "name is required"⟩, ⟨"amount", "amount is required"⟩] ∧
    validateCreateExpense (fun _ => none) (payloadWithAmount 5) = [] := by
  refine
    ⟨(validateCreateExpense_batch_spec (fun _ => none) {}
        ?_ ?_ ?_ ?_ rfl).trans (by decide),
     (validateCreateExpense_batch_spec (fun _ => none)
        { currency := some (.str "USD"), category := some (.str "Food") }
        ?_ ?_ ?_ ?_ rfl).trans (by decide),
     (validateCreateExpense_batch_spec (fun _ => none) (payloadWithAmount 5)
        ?_ ?_ ?_ ?_ rfl).trans (by decide)⟩ <;>
    intro v h <;> cases h <;> decide

/-- Claim C5: for every payload with a numeric amount, amount validation is
boundary-inclusive over 0.01 ≤ amount ≤ 999999.99 with textually distinct
boundary messages: the "must be at least" error appears exactly when the
amount is below the minimum, the distinct "cannot exceed" error exactly when
it is above the maximum, and an in-range amount produces no amount error. -/
theorem validateCreateExpense_amountBounds_spec (parseDate : String → Option Int)
    (b : Body) (q : ℚ) (hq : b.amount = some (.num (.val q))) :
    ((⟨"amount", "amount must be at least 0.01"⟩ : VError) ∈
        validateCreateExpense parseDate b ↔ q < ExpenseValidationRules.amountMin)
  ∧ ((⟨"amount", "amount cannot exceed 999999.99"⟩ : VError) ∈
        validateCreateExpense parseDate b ↔
      (ExpenseValidationRules.amountMin ≤ q ∧ ExpenseValidationRules.amountMax < q))
  ∧ (ExpenseValidationRules.amountMin ≤ q → q ≤ ExpenseValidationRules.amountMax →
      ∀ m, (⟨"amount", m⟩ : VError) ∉ validateCreateExpense parseDate b) := by
  have hseg : createAmountErrors (some (.num (.val q))) =
      (if q < ExpenseValidationRules.amountMin then
        [⟨"amount", "amount must be at least 0.01"⟩]
       else if ExpenseValidationRules.amountMax < q then
        [⟨"amount", "amount cannot exceed 999999.99"⟩]
       else []) := rfl
  refine ⟨?_, ?_, ?_⟩
  · rw [mem_validateCreate_amount_iff parseDate b _ rfl, hq, hseg]
    by_cases h1 : q < ExpenseValidationRules.amountMin
    · rw [if_pos h1]
      simp only [List.mem_singleton]
      exact ⟨fun _ => h1, fun _ => trivial⟩
    · rw [if_neg h1]
      by_cases h2 : ExpenseValidationRules.amountMax < q
      · rw [if_pos h2]
        simp only [List.mem_singleton]
        constructor
        · intro hx; exact absurd hx (by decide)
        · intro hx; exact absurd hx h1
      · rw [if_neg h2]
        constructor
        · intro hx; exact absurd hx (List.not_mem_nil _)
        · intro hx; exact absurd hx h1
  · rw [mem_validateCreate_amount_iff parseDate b _ rfl, hq, hseg]
    by_cases h1 : q < ExpenseValidationRules.amountMin
    · rw [if_pos h1]
      simp only [List.mem_singleton]
      constructor
      · intro hx; exact absurd hx (by decide)
      · rintro ⟨hge, _⟩; exact absurd h1 (not_lt.mpr hge)
    · rw [if_neg h1]
      by_cases h2 : ExpenseValidationRules.amountMax < q
      · rw [if_pos h2]
        simp only [List.mem_singleton]
        exact ⟨fun _ => ⟨not_lt.mp h1, h2⟩, fun _ => trivial⟩
      · rw [if_neg h2]
        constructor
        · intro hx; exact absurd hx (List.not_mem_nil _)
        · rintro ⟨_, hgt⟩; exact absurd hgt h2
  · intro hmin hmax m
    rw [mem_validateCreate_amount_iff parseDate b _ rfl, hq, hseg,
      if_neg (not_lt.mpr hmin), if_neg (not_lt.mpr hmax)]
    exact List.not_mem_nil _

/-- Witness for C5: 0.009 is rejected as too low, 1000000 as too high with
the distinct message, and the two boundary values produce no amount error. -/
theorem validateCreateExpense_amountBounds_spec_witness :
    ((⟨"amount", "amount must be at least 0.01"⟩ : VError) ∈
      validateCreateExpense (fun _ => none) (payloadWithAmount sampleLowAmount)) ∧
    ((⟨"amount", "amount cannot exceed 999999.99"⟩ : VError) ∈
      validateCreateExpense (fun _ => none) (payloadWithAmount 1000000)) ∧
    ((⟨"amount", "amount must be at least 0.01"⟩ : VError) ∉
      validateCreateExpense (fun _ => none)
        (payloadWithAmount ExpenseValidationRules.amountMin)) ∧
    ((⟨"amount", "amount cannot exceed 999999.99"⟩ : VError) ∉
      validateCreateExpense (fun _ => none)
        (payloadWithAmount ExpenseValidationRules.amountMax)) :=
  ⟨((validateCreateExpense_amountBounds_spec (fun _ => none)
      (payloadWithAmount sampleLowAmount) sampleLowAmount rfl).1).mpr (by decide),
   ((validateCreateExpense_amountBounds_spec (fun _ => none)
      (payloadWithAmount 1000000) 1000000 rfl).2.1).mpr ⟨by decide, by decide⟩,
   (validateCreateExpense_amountBounds_spec (fun _ => none)
      (payloadWithAmount ExpenseValidationRules.amountMin)
      ExpenseValidationRules.amountMin rfl).2.2 (by decide) (by decide) _,
   (validateCreateExpense_amountBounds_spec (fun _ => none)
      (payloadWithAmount ExpenseValidationRules.amountMax)
      ExpenseValidationRules.amountMax rfl).2.2 (by decide) (by decide) _⟩

/-- The page built by `findAllPaginated` satisfies the flag equations and the
pagination defaults. -/
theorem findAllPaginated_fields (options : FindAllOptions) (db : List Expense) :
    (ExpensesRepository.findAllPaginated options db).hasNext =
      decide ((ExpensesRepository.findAllPaginated options db).offset +
        (ExpensesRepository.findAllPaginated options db).limit <
        (ExpensesRepository.findAllPaginated options db).total) ∧
    (ExpensesRepository.findAllPaginated options db).hasPrevious =
      decide (0 < (ExpensesRepository.findAllPaginated options db).offset) ∧
    (options.limit = none → (ExpensesRepository.findAllPaginated options db).limit = 10) ∧
    (options.offset = none → (ExpensesRepository.findAllPaginated options db).offset = 0) := by
  refine ⟨rfl, rfl, ?_, ?_⟩
  · intro h
    simp [ExpensesRepository.findAllPaginated, h]
  · intro h
    simp [ExpensesRepository.findAllPaginated, h]

/-- A successful `limit` block on a present parameter yields a defined limit. -/
theorem parseLimitParam_ok_isSome {s : String} {v : Option Int}
    (h : parseLimitParam (some s) = .ok v) : v.isSome := by
  simp only [parseLimitParam] at h
  cases hjs : jsParseInt s with
  | none => rw [hjs] at h; simp at h
  | some l =>
    rw [hjs] at h
    by_cases h1 : l ≤ 0
    · simp [h1] at h
    · by_cases h2 : 100 < l
      · simp [h1, h2] at h
      · simp [h1, h2] at h
        rw [← h]; rfl

/-- A successful `offset` block on a present parameter yields a defined
offset. -/
theorem parseOffsetParam_ok_isSome {s : String} {v : Option Int}
    (h : parseOffsetParam (some s) = .ok v) : v.isSome := by
  simp only [parseOffsetParam] at h
  cases hjs : jsParseInt s with
  | none => rw [hjs] at h; simp at h
  | some o =>
    rw [hjs] at h
    by_cases h1 : o < 0
    · simp [h1] at h
    · simp [h1] at h
      rw [← h]; rfl

/-- Inversion of a successful `getAllExpenses` call into its parsed options
and the pagination-mode decision. -/
theorem getAllExpenses_ok_inv {pd : String → Option Int} {q : GetExpensesQuery}
    {db : List Expense} {r : ExpensesResult}
    (h : ExpensesService.getAllExpenses pd q db = .ok r) :
    ∃ opts, ExpensesService.parseGetExpensesQuery pd q = .ok opts ∧
      r = (if opts.limit.isSome || opts.offset.isSome then
            ExpensesResult.paginated (ExpensesRepository.findAllPaginated opts db)
          else ExpensesResult.plain (ExpensesRepository.findAll opts db)) := by
  unfold ExpensesService.getAllExpenses at h
  split at h
  · exact absurd h (by simp)
  next opts heq =>
    refine ⟨opts, heq, ?_⟩
    split at h
    next hcond =>
      rw [if_pos hcond]
      simp only [Except.ok.injEq] at h
      exact h.symm
    next hcond =>
      rw [if_neg hcond]
      simp only [Except.ok.injEq] at h
      exact h.symm

/-- Claim C1: a list query with `limit` or `offset` yields a paginated
wrapper whose limit defaults to 10 when only `offset` was given, whose offset
defaults to 0 when only `limit` was given, and whose flags satisfy
`hasNext = (offset + limit < total)` and `hasPrevious = (offset > 0)`; with
neither parameter the result is a plain list. With 5 rows, `limit=2&offset=4`
yields 1 item with hasNext=false/hasPrevious=true and `limit=2&offset=0`
yields 2 items with hasNext=true/hasPrevious=false. -/
theorem getAllExpenses_pagination_spec (parseDate : String → Option Int)
    (q : GetExpensesQuery) (db : List Expense) :
    (∀ p, ExpensesService.getAllExpenses parseDate q db = .ok (.paginated p) →
        p.hasNext = decide (p.offset + p.limit < p.total)
      ∧ p.hasPrevious = decide (0 < p.offset)
      ∧ (q.limit = none → p.limit = 10)
      ∧ (q.offset = none → p.offset = 0))
  ∧ (q.limit = none → q.offset = none →
      ∀ r, ExpensesService.getAllExpenses parseDate q db = .ok r →
        ∃ items, r = .plain items)
  ∧ ((q.limit.isSome ∨ q.offset.isSome) →
      ∀ r, ExpensesService.getAllExpenses parseDate q db = .ok r →
        ∃ p2, r = .paginated p2)
  ∧ ExpensesService.getAllExpenses (fun _ => none)
      { limit := some "2", offset := some "4" } sampleDb5 =
      .ok (.paginated ⟨[sampleExpense 1 100], 5, 2, 4, false, true⟩)
  ∧ ExpensesService.getAllExpenses (fun _ => none)
      { limit := some "2", offset := some "0" } sampleDb5 =
      .ok (.paginated ⟨[sampleExpense 5 500, sampleExpense 4 400], 5, 2, 0,
        true, false⟩) := by
  refine ⟨?_, ?_, ?_, by decide, by decide⟩
  · intro p hp
    obtain ⟨opts, ho, hre⟩ := getAllExpenses_ok_inv hp
    obtain ⟨hl, hoff, -, -, -, -⟩ := parseGetExpensesQuery_inv ho
    by_cases hcond : (opts.limit.isSome || opts.offset.isSome) = true
    · rw [if_pos hcond] at hre
      simp only [ExpensesResult.paginated.injEq] at hre
      subst hre
      obtain ⟨w1, w2, w3, w4⟩ := findAllPaginated_fields opts db
      refine ⟨w1, w2, ?_, ?_⟩
      · intro hqn
        rw [hqn] at hl
        simp only [parseLimitParam, Except.ok.injEq] at hl
        exact w3 hl.symm
      · intro hqn
        rw [hqn] at hoff
        simp only [parseOffsetParam, Except.ok.injEq] at hoff
        exact w4 hoff.symm
    · rw [if_neg hcond] at hre
      exact absurd hre (by simp)
  · intro hqlim hqoff r hr
    obtain ⟨opts, ho, hre⟩ := getAllExpenses_ok_inv hr
    obtain ⟨hl, hoff, -, -, -, -⟩ := parseGetExpensesQuery_inv ho
    rw [hqlim] at hl
    rw [hqoff] at hoff
    simp only [parseLimitParam, Except.ok.injEq] at hl
    simp only [parseOffsetParam, Except.ok.injEq] at hoff
    rw [← hl, ← hoff] at hre
    simp only [Option.isSome_none, Bool.or_self, Bool.false_eq_true,
      if_false] at hre
    exact ⟨_, hre⟩
  · intro hsome r hr
    obtain ⟨opts, ho, hre⟩ := getAllExpenses_ok_inv hr
    obtain ⟨hl, hoff, -, -, -, -⟩ := parseGetExpensesQuery_inv ho
    have hcond : (opts.limit.isSome || opts.offset.isSome) = true := by
      rcases hsome with hs | hs
      · obtain ⟨s, hqs⟩ := Option.isSome_iff_exists.mp hs
        rw [hqs] at hl
        have := parseLimitParam_ok_isSome hl
        simp [this]
      · obtain ⟨s, hqs⟩ := Option.isSome_iff_exists.mp hs
        rw [hqs] at hoff
        have := parseOffsetParam_ok_isSome hoff
        simp [this]
    rw [if_pos hcond] at hre
    exact ⟨_, hre⟩

/-- Witness for C1 at the concrete 5-row table. -/
theorem getAllExpenses_pagination_spec_witness :
    ∃ p, ExpensesService.getAllExpenses (fun _ => none)
        { limit := some "2", offset := some "4" } sampleDb5 = .ok (.paginated p) ∧
      p.hasNext = decide (p.offset + p.limit < p.total) ∧
      p.hasPrevious = decide (0 < p.offset) ∧
      p.expenses.length = 1 :=
  ⟨⟨[sampleExpense 1 100], 5, 2, 4, false, true⟩, by decide,
   ((getAllExpenses_pagination_spec (fun _ => none)
      { limit := some "2", offset := some "4" } sampleDb5).1 _ (by decide)).1,
   ((getAllExpenses_pagination_spec (fun _ => none)
      { limit := some "2", offset := some "4" } sampleDb5).1 _ (by decide)).2.1,
   by decide⟩

/-- A sorted run with pairwise-distinct ids is strictly descending in the
lexicographic (date, id) order. -/
theorem applyOrderBy_strict (l : List Expense)
    (h : l.Pairwise (fun a b => a.id ≠ b.id)) :
    (applyOrderBy l).Pairwise
      (fun a b => b.date < a.date ∨ (b.date = a.date ∧ b.id < a.id)) := by
  have hs : (applyOrderBy l).Pairwise expBefore :=
    List.sorted_insertionSort expBefore l
  have hperm : (applyOrderBy l).Perm l := List.perm_insertionSort expBefore l
  have hne : (applyOrderBy l).Pairwise (fun a b => a.id ≠ b.id) :=
    (hperm.pairwise_iff (fun hxy hyx => hxy hyx.symm)).mpr h
  refine (hs.and hne).imp ?_
  intro a b hab
  rcases hab with ⟨hbef, hne2⟩
  unfold expBefore at hbef
  omega

/-- `findAll` returns a sublist of the sorted filtered rows. -/
theorem findAll_sublist (options : FindAllOptions) (db : List Expense) :
    List.Sublist (ExpensesRepository.findAll options db)
      (applyOrderBy (db.filter (matchesWhere options))) := by
  unfold ExpensesRepository.findAll
  cases options.offset with
  | none =>
    cases options.limit with
    | none => exact List.Sublist.refl _
    | some k => exact List.take_sublist _ _
  | some k =>
    cases options.limit with
    | none => exact List.drop_sublist _ _
    | some m => exact (List.take_sublist _ _).trans (List.drop_sublist _ _)

/-- Claim C8: every listing (paginated or not) is ordered by date descending
with id descending as tie-break; under the table invariant of unique ids the
output order is strictly descending (hence deterministic), and three rows
sharing a date come back in descending id order. -/
theorem listing_order_spec (options : FindAllOptions) (db : List Expense)
    (hids : db.Pairwise (fun a b => a.id ≠ b.id)) :
    (ExpensesRepository.findAll options db).Pairwise
      (fun a b => b.date < a.date ∨ (b.date = a.date ∧ b.id < a.id))
  ∧ (ExpensesRepository.findAllPaginated options db).expenses.Pairwise
      (fun a b => b.date < a.date ∨ (b.date = a.date ∧ b.id < a.id))
  ∧ (ExpensesRepository.findAll {} sampleDbTie).map Expense.id = [3, 2, 1] := by
  have hfil : (db.filter (matchesWhere options)).Pairwise
      (fun a b => a.id ≠ b.id) := List.Pairwise.filter _ hids
  have hstrict := applyOrderBy_strict _ hfil
  refine ⟨List.Pairwise.sublist (findAll_sublist options db) hstrict, ?_, by decide⟩
  have hsub2 : List.Sublist (ExpensesRepository.findAllPaginated options db).expenses
      (applyOrderBy (db.filter (matchesWhere options))) := by
    simp only [ExpensesRepository.findAllPaginated]
    exact (List.take_sublist _ _).trans (List.drop_sublist _ _)
  exact List.Pairwise.sublist hsub2 hstrict

/-- Witness for C8 at three rows with identical dates and ids 1, 2, 3. -/
theorem listing_order_spec_witness :
    sampleDbTie.Pairwise (fun a b => a.id ≠ b.id) ∧
    (ExpensesRepository.findAll {} sampleDbTie).map Expense.id = [3, 2, 1] ∧
    (ExpensesRepository.findAll {} sampleDbTie).Pairwise
      (fun a b => b.date < a.date ∨ (b.date = a.date ∧ b.id < a.id)) :=
  ⟨by decide, (listing_order_spec {} sampleDbTie (by decide)).2.2,
   (listing_order_spec {} sampleDbTie (by decide)).1⟩

/-- Claim C7: unknown/extra fields alongside valid recognized fields are
silently ignored: both validators and the create path are insensitive to
them, the update path is insensitive to them whenever at least one recognized
field is supplied, and after an update the persisted row (which by the table
schema has only the recognized columns) keeps every field not named in the
payload unchanged. -/
theorem extraFields_ignored_spec (parseDate : String → Option Int) (b : Body)
    (e : List (String × JsVal)) :
    validateCreateExpense parseDate { b with extra := e } =
      validateCreateExpense parseDate b
  ∧ validateUpdateExpense parseDate { b with extra := e } =
      validateUpdateExpense parseDate b
  ∧ (∀ (now : Int) (dto : CreateExpenseDto),
      ExpensesService.createExpense parseDate now { dto with extra := e } =
        ExpensesService.createExpense parseDate now dto)
  ∧ (∀ (now id : Int) (db : List Expense), providedFields b ≠ [] →
      ExpensesService.updateExpense parseDate now id { b with extra := e } db =
        ExpensesService.updateExpense parseDate now id b db)
  ∧ (∀ (now id : Int) (db : List Expense) (row r : Expense) (db2 : List Expense),
      ExpensesService.updateExpense parseDate now id b db = .ok (some r, db2) →
      ExpensesRepository.findById id db = some row →
        (b.name = none → r.name = row.name)
      ∧ (b.amount = none → r.amount = row.amount)
      ∧ (b.currency = none → r.currency = row.currency)
      ∧ (b.category = none → r.category = row.category)
      ∧ (b.date = none → r.date = row.date)) := by
  refine ⟨rfl, rfl, fun now dto => rfl, ?_, ?_⟩
  · intro now id db hne
    have hlen : (providedFields b).length ≠ 0 := by
      intro h0
      exact hne (List.length_eq_zero.mp h0)
    have hc1 : ¬ (((providedFields b).length + e.length == 0) = true) := by
      intro hc
      rw [beq_iff_eq] at hc
      exact hlen (by omega)
    have hc2 : ¬ (((providedFields b).length + b.extra.length == 0) = true) := by
      intro hc
      rw [beq_iff_eq] at hc
      exact hlen (by omega)
    have hp : providedFields { b with extra := e } = providedFields b := rfl
    have hex : extractUpdateFields parseDate { b with extra := e } =
        extractUpdateFields parseDate b := rfl
    simp only [ExpensesService.updateExpense, hp, hex]
    rcases Decidable.em (id ≤ 0) with hid | hid
    · rw [if_pos hid, if_pos hid]
    · rw [if_neg hid, if_neg hid, if_neg hc1, if_neg hc2]
  · intro now id db row r db2 hok hrow
    unfold ExpensesService.updateExpense at hok
    split at hok
    · exact absurd hok (by simp)
    · split at hok
      · exact absurd hok (by simp)
      · split at hok
        · exact absurd hok (by simp)
        · split at hok
          · exact absurd hok (by simp)
          · simp only [Except.ok.injEq] at hok
            unfold ExpensesRepository.update at hok
            rw [hrow] at hok
            simp only [Prod.mk.injEq, Option.some.injEq] at hok
            obtain ⟨hr, -⟩ := hok
            subst hr
            refine ⟨?_, ?_, ?_, ?_, ?_⟩ <;> intro hfn <;>
              simp [applyUpdateRow, extractUpdateFields, hfn]

/-- Witness for C7: updating row 1 with `{amount: 25, invalidField: "x"}`
behaves exactly like `{amount: 25}`, and the updated row keeps the name not
named in the payload. -/
theorem extraFields_ignored_spec_witness :
    ExpensesService.updateExpense (fun _ => none) 7 1
        { amount := some (.num (.val 25)), extra := [("invalidField", .str "x")] }
        [sampleExpense 1 100] =
      ExpensesService.updateExpense (fun _ => none) 7 1
        { amount := some (.num (.val 25)) } [sampleExpense 1 100] ∧
    ({ id := 1, name := "Coffee", amount := 25, currency := "USD",
       category := "Food", date := 100, createdAt := 0,
       updatedAt := 7 } : Expense).name = (sampleExpense 1 100).name :=
  ⟨(extraFields_ignored_spec (fun _ => none)
      { amount := some (.num (.val 25)) } [("invalidField", .str "x")]).2.2.2.1
      7 1 [sampleExpense 1 100] (by decide),
   ((extraFields_ignored_spec (fun _ => none)
      { amount := some (.num (.val 25)) } [("invalidField", .str "x")]).2.2.2.2
      7 1 [sampleExpense 1 100] (sampleExpense 1 100)
      { id := 1, name := "Coffee", amount := 25, currency := "USD",
        category := "Food", date := 100, createdAt := 0, updatedAt := 7 }
      [{ id := 1, name := "Coffee", amount := 25, currency := "USD",
         category := "Food", date := 100, createdAt := 0, updatedAt := 7 }]
      (by decide) (by decide)).1 rfl⟩

end ExpenseTracker
